import Mathlib

/-!
Shallow embedding of the mtga-meta-deck-finder core (src/main.py) and proofs
about it.  Python integers are modelled as `Int` (or `Nat` where the source
only ever produces non-negative values), Python exceptions as `Option`
(`none` = the call raised), SQL tables as lists of rows, and SQL NULL of a
text column either as `Option.none` or, where the code only ever tests
truthiness (NULL and the empty string behave identically), as `""`.
-/

/-- `ManaPool` dataclass (src/main.py:134-161). -/
structure ManaPool where
  W : Int := 0
  U : Int := 0
  B : Int := 0
  R : Int := 0
  G : Int := 0
  C : Int := 0
deriving DecidableEq

/-- `ManaCost` dataclass (src/main.py:164-172). -/
structure ManaCost where
  W : Int := 0
  U : Int := 0
  B : Int := 0
  R : Int := 0
  G : Int := 0
  C : Int := 0
  generic : Int := 0
deriving DecidableEq

/-- `ManaPool.total` property (src/main.py:143-145). -/
def ManaPool.total (p : ManaPool) : Int :=
  p.W + p.U + p.B + p.R + p.G + p.C

/-- `ManaPool.can_pay` (src/main.py:147-161).  The Python loop over
`["W","U","B","R","G"]` with the running `remaining` counter is unrolled;
`remaining` after all deductions is `total - W - U - B - R - G - C`. -/
def ManaPool.can_pay (p : ManaPool) (c : ManaCost) : Bool :=
  if p.W < c.W then false
  else if p.U < c.U then false
  else if p.B < c.B then false
  else if p.R < c.R then false
  else if p.G < c.G then false
  else if p.C < c.C then false
  else decide (c.generic ≤ p.total - c.W - c.U - c.B - c.R - c.G - c.C)

/-!
Python string primitives, modelled over `List Char` (Lean's builtin `String`
functions do not reduce in the kernel).  `splitOnGo`/`splitOnL` is Python
`str.split(sep)` for a non-empty separator; `replaceGo`/`replaceL` is
`str.replace`; `trimL` is `str.strip()` (Python strips a slightly larger
whitespace set; the data here only ever contains ASCII whitespace);
`splitAnyGo` splits at every character satisfying a predicate.
-/

/-- First occurrence of `sep`: the part before it and the part after it. -/
def splitFirst (sep : List Char) : List Char → Option (List Char × List Char)
  | [] => none
  | c :: rest =>
    if sep.isPrefixOf (c :: rest) then some ([], List.drop sep.length (c :: rest))
    else (splitFirst sep rest).map (fun p => (c :: p.1, p.2))

/-- Each split consumes at least one character, so `l.length` steps of fuel
always suffice; the fuel-0 fallback is never reached with that budget. -/
def splitOnFuel (sep : List Char) : Nat → List Char → List (List Char)
  | 0, l => [l]
  | fuel + 1, l =>
    match splitFirst sep l with
    | none => [l]
    | some (pre, post) => pre :: splitOnFuel sep fuel post

def splitOnL (sep l : List Char) : List (List Char) :=
  if sep.isEmpty then [l] else splitOnFuel sep l.length l

def replaceFuel (pat repl : List Char) : Nat → List Char → List Char
  | 0, l => l
  | _ + 1, [] => []
  | fuel + 1, c :: rest =>
    if pat.isPrefixOf (c :: rest) then
      repl ++ replaceFuel pat repl fuel (List.drop pat.length (c :: rest))
    else
      c :: replaceFuel pat repl fuel rest

def replaceL (pat repl l : List Char) : List Char :=
  if pat.isEmpty then l else replaceFuel pat repl l.length l

def trimL (l : List Char) : List Char :=
  ((l.dropWhile Char.isWhitespace).reverse.dropWhile Char.isWhitespace).reverse

def splitAnyGo (p : Char → Bool) : List Char → List Char → List (List Char)
  | [], acc => [acc.reverse]
  | c :: rest, acc =>
    if p c then acc.reverse :: splitAnyGo p rest [] else splitAnyGo p rest (c :: acc)

/-- Python `str.split()` (no argument): whitespace runs, empty tokens dropped. -/
def wsplitL (l : List Char) : List (List Char) :=
  (splitAnyGo Char.isWhitespace l []).filter (· ≠ [])

/-- Python `sub in s` (substring containment, for a non-empty pattern). -/
def hasSubL (pat : List Char) : List Char → Bool
  | [] => pat.isPrefixOf []
  | c :: rest => pat.isPrefixOf (c :: rest) || hasSubL pat rest

/-- Python `str.isdigit()` restricted to ASCII, as in the data encountered. -/
def isDigitsL (l : List Char) : Bool :=
  !l.isEmpty && l.all Char.isDigit

/-- Python `int(...)` on an all-digit string. -/
def natOfDigits (l : List Char) : Nat :=
  l.foldl (fun n c => n * 10 + (c.toNat - 48)) 0

/-!
`ManaCost.from_string` (src/main.py:174-212).  The regex
`re.findall(r"\x7b([^\x7d]+)\x7d", mana_cost)` is embedded as
`extractSymbols`: at each opening brace, the run of non-closing-brace
characters up to the next closing brace is captured when non-empty; the scan
resumes after the closing brace.  Attribute errors (`getattr`/`setattr` on a
name that is not a field, `[c for c in colors if c != "P"][0]` on an empty
list) are modelled by `Option.none`.
-/

/-- Scanner for the regex, as a two-state machine: `none` = outside braces,
`some acc` = inside a brace group with `acc` the (reversed) content read so
far.  An empty group yields no capture; a group left open at the end of the
string yields no capture (and nothing after it can match). -/
def extractGo : Option (List Char) → List Char → List (List Char)
  | none, [] => []
  | none, c :: rest =>
    if c = '\x7b' then extractGo (some []) rest else extractGo none rest
  | some _, [] => []
  | some acc, c :: rest =>
    if c = '\x7d' then
      if acc.isEmpty then extractGo none rest
      else acc.reverse :: extractGo none rest
    else
      extractGo (some (c :: acc)) rest

def extractSymbols (l : List Char) : List (List Char) :=
  extractGo none l

/-- `getattr(cost, col)`/`setattr(cost, col, getattr(cost, col) + 1)` for an
attribute name taken from the symbol text: the integer fields succeed, any
other attribute raises (modelled as `none`). -/
def ManaCost.addColor (c : ManaCost) (col : List Char) : Option ManaCost :=
  if col = [ 'W' ] then some { c with W := c.W + 1 }
  else if col = [ 'U' ] then some { c with U := c.U + 1 }
  else if col = [ 'B' ] then some { c with B := c.B + 1 }
  else if col = [ 'R' ] then some { c with R := c.R + 1 }
  else if col = [ 'G' ] then some { c with G := c.G + 1 }
  else if col = [ 'C' ] then some { c with C := c.C + 1 }
  else if col = "generic".toList then some { c with generic := c.generic + 1 }
  else none

/-- The body of the `for symbol in symbols` loop in `ManaCost.from_string`. -/
def ManaCost.applySymbol (c : ManaCost) (sym : List Char) : Option ManaCost :=
  if isDigitsL sym then some { c with generic := c.generic + natOfDigits sym }
  else if sym = [ 'W' ] then some { c with W := c.W + 1 }
  else if sym = [ 'U' ] then some { c with U := c.U + 1 }
  else if sym = [ 'B' ] then some { c with B := c.B + 1 }
  else if sym = [ 'R' ] then some { c with R := c.R + 1 }
  else if sym = [ 'G' ] then some { c with G := c.G + 1 }
  else if sym = [ 'C' ] then some { c with C := c.C + 1 }
  else if sym = [ 'X' ] then some c
  else if sym.contains '/' then
    let colors := splitOnL [ '/' ] sym
    if colors.contains [ 'P' ] then
      match colors.filter (· ≠ [ 'P' ]) with
      | [] => none
      | col :: _ => c.addColor col
    else
      match colors with
      | [] => none
      | c0 :: _ =>
        if isDigitsL c0 then some { c with generic := c.generic + natOfDigits c0 }
        else c.addColor c0
  else some c

/-- `ManaCost.from_string` (src/main.py:174-212). -/
def ManaCost.from_string (s : String) : Option ManaCost :=
  if s.isEmpty then some {}
  else (extractSymbols s.toList).foldlM ManaCost.applySymbol {}

theorem slash_not_digits (sym : List Char) (h : sym.contains '/' = true) :
    isDigitsL sym = false := by
  by_contra hfalse
  have ht : isDigitsL sym = true := by revert hfalse; cases isDigitsL sym <;> simp
  have hm : '/' ∈ sym := by simpa using h
  simp only [isDigitsL, Bool.and_eq_true, List.all_eq_true] at ht
  have := ht.2 _ hm
  simp at this

theorem extractGo_none_of_no_brace (l : List Char) (h : l.contains '\x7b' = false) :
    extractGo none l = [] := by
  induction l with
  | nil => rfl
  | cons c rest ih =>
    simp only [List.contains_cons, Bool.or_eq_false_iff] at h
    have hc : ¬ c = '\x7b' := by
      intro hh
      subst hh
      simp at h
    simp only [extractGo, if_neg hc]
    exact ih h.2

/-- In `ManaCost.applySymbol`, a symbol containing `/` that is not a digit
string and not one of the seven single-letter symbols reaches the hybrid
branch. -/
theorem applySymbol_slash (c : ManaCost) (sym : List Char)
    (hnd : isDigitsL sym = false)
    (h1 : sym ≠ [ 'W' ]) (h2 : sym ≠ [ 'U' ]) (h3 : sym ≠ [ 'B' ]) (h4 : sym ≠ [ 'R' ])
    (h5 : sym ≠ [ 'G' ]) (h6 : sym ≠ [ 'C' ]) (h7 : sym ≠ [ 'X' ])
    (h : sym.contains '/' = true) :
    c.applySymbol sym =
      (if (splitOnL [ '/' ] sym).contains [ 'P' ] then
        match (splitOnL [ '/' ] sym).filter (· ≠ [ 'P' ]) with
        | [] => none
        | col :: _ => c.addColor col
      else
        match splitOnL [ '/' ] sym with
        | [] => none
        | c0 :: _ =>
          if isDigitsL c0 then some { c with generic := c.generic + natOfDigits c0 }
          else c.addColor c0) := by
  rw [ManaCost.applySymbol]
  rw [if_neg (by simp [hnd]), if_neg h1, if_neg h2, if_neg h3, if_neg h4, if_neg h5,
    if_neg h6, if_neg h7, if_pos h]

/-- C3: `ManaCost.from_string` applies exactly the claimed per-symbol rules to
each brace-delimited symbol: a pure digit string adds its value to `generic`;
a single color letter increments that color; `X` contributes nothing; a
hybrid symbol containing `/` adds 1 to the (first) non-`P` color when one
side is `P`, otherwise adds the first side to `generic` when it is numeric
and otherwise increments the first listed color; any other symbol is ignored;
a string containing no brace yields the all-zero cost; and the spec examples
`"\x7bR/P\x7d"` and `"\x7b2/W\x7d"` evaluate as claimed. -/
theorem C3_from_string_rules :
    (∀ (c : ManaCost) (sym : List Char), isDigitsL sym = true →
      c.applySymbol sym = some { c with generic := c.generic + natOfDigits sym })
    ∧ (∀ c : ManaCost,
        c.applySymbol [ 'W' ] = some { c with W := c.W + 1 }
        ∧ c.applySymbol [ 'U' ] = some { c with U := c.U + 1 }
        ∧ c.applySymbol [ 'B' ] = some { c with B := c.B + 1 }
        ∧ c.applySymbol [ 'R' ] = some { c with R := c.R + 1 }
        ∧ c.applySymbol [ 'G' ] = some { c with G := c.G + 1 }
        ∧ c.applySymbol [ 'C' ] = some { c with C := c.C + 1 }
        ∧ c.applySymbol [ 'X' ] = some c)
    ∧ (∀ c : ManaCost,
        c.addColor [ 'W' ] = some { c with W := c.W + 1 }
        ∧ c.addColor [ 'U' ] = some { c with U := c.U + 1 }
        ∧ c.addColor [ 'B' ] = some { c with B := c.B + 1 }
        ∧ c.addColor [ 'R' ] = some { c with R := c.R + 1 }
        ∧ c.addColor [ 'G' ] = some { c with G := c.G + 1 }
        ∧ c.addColor [ 'C' ] = some { c with C := c.C + 1 })
    ∧ (∀ (c : ManaCost) (sym col : List Char) (rest : List (List Char)),
        sym.contains '/' = true →
        (splitOnL [ '/' ] sym).contains [ 'P' ] = true →
        (splitOnL [ '/' ] sym).filter (· ≠ [ 'P' ]) = col :: rest →
        c.applySymbol sym = c.addColor col)
    ∧ (∀ (c : ManaCost) (sym c0 : List Char) (rest : List (List Char)),
        sym.contains '/' = true →
        (splitOnL [ '/' ] sym).contains [ 'P' ] = false →
        splitOnL [ '/' ] sym = c0 :: rest →
        isDigitsL c0 = true →
        c.applySymbol sym = some { c with generic := c.generic + natOfDigits c0 })
    ∧ (∀ (c : ManaCost) (sym c0 : List Char) (rest : List (List Char)),
        sym.contains '/' = true →
        (splitOnL [ '/' ] sym).contains [ 'P' ] = false →
        splitOnL [ '/' ] sym = c0 :: rest →
        isDigitsL c0 = false →
        c.applySymbol sym = c.addColor c0)
    ∧ (∀ (c : ManaCost) (sym : List Char),
        isDigitsL sym = false →
        sym ≠ [ 'W' ] → sym ≠ [ 'U' ] → sym ≠ [ 'B' ] → sym ≠ [ 'R' ] →
        sym ≠ [ 'G' ] → sym ≠ [ 'C' ] → sym ≠ [ 'X' ] →
        sym.contains '/' = false →
        c.applySymbol sym = some c)
    ∧ (∀ s : String, s.toList.contains '\x7b' = false → ManaCost.from_string s = some {})
    ∧ ManaCost.from_string "\x7bR/P\x7d" = some { R := 1 }
    ∧ ManaCost.from_string "\x7b2/W\x7d" = some { generic := 2 } := by
  have hslash : ∀ sym : List Char, sym.contains '/' = true →
      isDigitsL sym = false ∧ sym ≠ [ 'W' ] ∧ sym ≠ [ 'U' ] ∧ sym ≠ [ 'B' ]
      ∧ sym ≠ [ 'R' ] ∧ sym ≠ [ 'G' ] ∧ sym ≠ [ 'C' ] ∧ sym ≠ [ 'X' ] := by
    intro sym h
    refine ⟨slash_not_digits sym h, ?_, ?_, ?_, ?_, ?_, ?_, ?_⟩ <;>
      (rintro rfl; exact absurd h (by decide))
  refine ⟨?_, ?_, ?_, ?_, ?_, ?_, ?_, ?_, by decide, by decide⟩
  · intro c sym h
    simp [ManaCost.applySymbol, h]
  · intro c
    refine ⟨?_, ?_, ?_, ?_, ?_, ?_, ?_⟩ <;> rfl
  · intro c
    refine ⟨?_, ?_, ?_, ?_, ?_, ?_⟩ <;> rfl
  · intro c sym col rest h hp hfilter
    obtain ⟨hnd, h1, h2, h3, h4, h5, h6, h7⟩ := hslash sym h
    rw [applySymbol_slash c sym hnd h1 h2 h3 h4 h5 h6 h7 h, if_pos hp, hfilter]
  · intro c sym c0 rest h hp hsplit hdig
    obtain ⟨hnd, h1, h2, h3, h4, h5, h6, h7⟩ := hslash sym h
    rw [applySymbol_slash c sym hnd h1 h2 h3 h4 h5 h6 h7 h, if_neg (by simpa using hp), hsplit]
    simp [hdig]
  · intro c sym c0 rest h hp hsplit hdig
    obtain ⟨hnd, h1, h2, h3, h4, h5, h6, h7⟩ := hslash sym h
    rw [applySymbol_slash c sym hnd h1 h2 h3 h4 h5 h6 h7 h, if_neg (by simpa using hp), hsplit]
    simp [hdig]
  · intro c sym hnd h1 h2 h3 h4 h5 h6 h7 hs
    rw [ManaCost.applySymbol]
    rw [if_neg (by simp [hnd]), if_neg h1, if_neg h2, if_neg h3, if_neg h4, if_neg h5,
      if_neg h6, if_neg h7, if_neg (by simpa using hs)]
  · intro s h
    have hl : extractGo none s.toList = [] := extractGo_none_of_no_brace _ h
    simp only [String.toList] at hl
    by_cases hs : s.isEmpty <;> simp [ManaCost.from_string, hs, extractSymbols, hl]

/-- Witness for C3: the per-symbol rules applied at concrete symbols, and the
no-brace clause at a concrete string. -/
theorem C3_from_string_rules_witness :
    ManaCost.applySymbol {} [ '7' ] = some { generic := 7 }
    ∧ ManaCost.applySymbol {} [ 'G', '/', 'P' ] = ManaCost.addColor {} [ 'G' ]
    ∧ ManaCost.applySymbol {} [ '2', '/', 'W' ] = some { generic := 2 }
    ∧ ManaCost.applySymbol {} [ 'W', '/', 'U' ] = ManaCost.addColor {} [ 'W' ]
    ∧ ManaCost.applySymbol {} [ 'S' ] = some {}
    ∧ ManaCost.from_string "abc" = some {} := by
  obtain ⟨h1, _, _, h4, h5, h6, h7, h8, _⟩ := C3_from_string_rules
  refine ⟨h1 {} [ '7' ] (by decide),
    h4 {} [ 'G', '/', 'P' ] [ 'G' ] [] (by decide) (by decide) (by decide),
    ?_,
    h6 {} [ 'W', '/', 'U' ] [ 'W' ] [ [ 'U' ] ] (by decide) (by decide) (by decide) (by decide),
    h7 {} [ 'S' ] (by decide) (by decide) (by decide) (by decide) (by decide)
      (by decide) (by decide) (by decide) (by decide),
    h8 "abc" (by decide)⟩
  have := h5 {} [ '2', '/', 'W' ] [ '2' ] [ [ 'W' ] ] (by decide) (by decide) (by decide)
    (by decide)
  simpa using this

/-- C2: `can_pay(pool, cost)` returns True iff the pool dominates the cost
componentwise and the leftover total covers the generic requirement; it is a
total Bool-valued function (never errors); the two concrete examples from the
spec evaluate as stated. -/
theorem C2_can_pay_characterization :
    (∀ (p : ManaPool) (c : ManaCost),
      p.can_pay c = true ↔
        (c.W ≤ p.W ∧ c.U ≤ p.U ∧ c.B ≤ p.B ∧ c.R ≤ p.R ∧ c.G ≤ p.G ∧ c.C ≤ p.C ∧
          c.generic ≤ p.total - (c.W + c.U + c.B + c.R + c.G + c.C)))
    ∧ ManaPool.can_pay { W := 2, G := 1, C := 1 } { W := 2, generic := 1 } = true
    ∧ ManaPool.can_pay { W := 2, G := 1, C := 1 } { W := 3 } = false := by
  refine ⟨?_, by decide, by decide⟩
  intro p c
  simp only [ManaPool.can_pay, ManaPool.total]
  split_ifs <;> simp <;> omega

/-!
`calculate_mana_cost_value` (src/main.py:542-556).  The Python loop indexes
`mana_cost[i + 1]` whenever `mana_cost[i]` is an opening brace, so a string
whose final character is an opening brace raises `IndexError` (modelled as
`none`).  `cmcvAux` walks the character list with one-character lookahead,
mirroring the loop body: the brace test (with its tag for the following
character) runs first, then the independent digit test on the current
character.
-/

/-- The display tag appended for character `c`:
`<i class="ms ms-` + c.lower + ` ms-cost ms-shadow"></i> `. -/
def manaTag (c : Char) : String :=
  "<i class=\"ms ms-" ++ String.singleton c.toLower ++ " ms-cost ms-shadow\"></i> "

def cmcvAux : List Char → Option (Nat × String)
  | [] => some (0, "")
  | c :: rest =>
    let bracePart : Option (Nat × String) :=
      if c = '\x7b' then
        match rest with
        | [] => none
        | d :: _ => if d.isDigit then some (0, "") else some (1, manaTag d)
      else some (0, "")
    match bracePart, cmcvAux rest with
    | none, _ => none
    | _, none => none
    | some (v1, t1), some (v, t) =>
      if c.isDigit then some (v1 + (c.toNat - 48) + v, t1 ++ manaTag c ++ t)
      else some (v1 + v, t1 ++ t)

def calculate_mana_cost_value (s : String) : Option (Nat × String) :=
  if s.isEmpty then some (0, "")
  else (cmcvAux s.toList).map (fun vt => (vt.1, String.mk (trimL vt.2.toList)))

/-- Spec-side count: the number of opening-brace positions whose immediately
following character is not a digit, phrased over adjacent character pairs. -/
def braceNonDigitCount (l : List Char) : Nat :=
  ((l.zip l.tail).filter (fun p => p.1 = '\x7b' && !p.2.isDigit)).length

/-- Spec-side sum of the integer values of all digit characters. -/
def digitSum (l : List Char) : Nat :=
  ((l.filter Char.isDigit).map (fun c => c.toNat - 48)).sum

theorem braceNonDigitCount_cons2 (c d : Char) (rest : List Char) :
    braceNonDigitCount (c :: d :: rest) =
      (if c = '\x7b' && !d.isDigit then 1 else 0) + braceNonDigitCount (d :: rest) := by
  simp only [braceNonDigitCount, List.tail_cons, List.zip_cons_cons, List.filter_cons]
  split <;> simp [Nat.add_comm]

theorem digitSum_cons (c : Char) (rest : List Char) :
    digitSum (c :: rest) = (if c.isDigit then c.toNat - 48 else 0) + digitSum rest := by
  simp only [digitSum, List.filter_cons]
  split <;> simp

theorem cmcvAux_cons (c d : Char) (rest : List Char) :
    cmcvAux (c :: d :: rest) =
      match (if c = '\x7b' then (if d.isDigit then some (0, "") else some (1, manaTag d))
          else some ((0 : Nat), ("" : String))), cmcvAux (d :: rest) with
      | none, _ => none
      | _, none => none
      | some (v1, t1), some (v, t) =>
        if c.isDigit then some (v1 + (c.toNat - 48) + v, t1 ++ manaTag c ++ t)
        else some (v1 + v, t1 ++ t) := rfl

theorem cmcvAux_value (l : List Char) (h : l.getLast? ≠ some '\x7b') :
    (cmcvAux l).map Prod.fst = some (braceNonDigitCount l + digitSum l) := by
  induction l with
  | nil => rfl
  | cons c rest ih =>
    cases rest with
    | nil =>
      have hc : ¬ c = '\x7b' := by simpa using h
      by_cases hcd : c.isDigit <;>
        simp [cmcvAux, hc, hcd, braceNonDigitCount, digitSum]
    | cons d rest2 =>
      have h2 : (d :: rest2).getLast? ≠ some '\x7b' := by
        rw [List.getLast?_cons_cons] at h
        exact h
      have ht := ih h2
      cases hrec : cmcvAux (d :: rest2) with
      | none => rw [hrec] at ht; simp at ht
      | some p =>
        rw [hrec] at ht
        obtain ⟨v, tg⟩ := p
        simp at ht
        rw [cmcvAux_cons, hrec]
        by_cases hc : c = '\x7b'
        · subst hc
          by_cases hd : d.isDigit <;>
            simp [hd, braceNonDigitCount_cons2, digitSum_cons, ht,
              (by decide : ('\x7b').isDigit = false)] <;>
            omega
        · by_cases hcd : c.isDigit <;>
            simp [hc, hcd, braceNonDigitCount_cons2, digitSum_cons, ht] <;>
            omega

/-- C9 counterexample: on the string `"\x7b"` (a single opening brace) the
claimed per-character walk formula is defined (value 0), but
`calculate_mana_cost_value` raises an `IndexError` reading `mana_cost[i + 1]`
and returns no value at all. -/
theorem C9_trailing_brace_raises :
    calculate_mana_cost_value "\x7b" = none
    ∧ braceNonDigitCount "\x7b".toList + digitSum "\x7b".toList = 0 := by
  constructor <;> decide

/-- C9 (amended): for every string that does not end with an opening brace,
`calculate_mana_cost_value` returns a value equal to the number of
opening-brace positions whose immediately following character is not a digit
plus the sum of the integer values of all digit characters; the empty string
yields `(0, "")`; and each contribution appends one display tag (checked on a
concrete cost, tags in walk order, trailing space stripped). -/
theorem C9_cost_value_characterization :
    (∀ s : String, s.toList.getLast? ≠ some '\x7b' →
      (calculate_mana_cost_value s).map Prod.fst =
        some (braceNonDigitCount s.toList + digitSum s.toList))
    ∧ calculate_mana_cost_value "" = some (0, "")
    ∧ calculate_mana_cost_value "\x7bW\x7d\x7b10\x7d" =
        some (2, String.mk (trimL (manaTag 'W' ++ manaTag '1' ++ manaTag '0').toList)) := by
  refine ⟨?_, by decide, by decide⟩
  intro s h
  by_cases hs : s.isEmpty
  · have hse : s = "" := (String.isEmpty_iff s).mp hs
    subst hse
    decide
  · have hval := cmcvAux_value s.toList h
    cases hv : cmcvAux s.toList with
    | none => rw [hv] at hval; simp at hval
    | some p =>
      rw [hv] at hval
      obtain ⟨v, tg⟩ := p
      simp at hval
      simp only [String.toList] at hv
      simp [calculate_mana_cost_value, hs, String.toList, hv, hval]

/-- Witness for C9: the amended walk formula applied at the concrete cost
`"\x7bW\x7d\x7b2\x7d"`, whose value is 1 + 2 = 3. -/
theorem C9_cost_value_characterization_witness :
    (calculate_mana_cost_value "\x7bW\x7d\x7b2\x7d").map Prod.fst =
      some (braceNonDigitCount "\x7bW\x7d\x7b2\x7d".toList +
        digitSum "\x7bW\x7d\x7b2\x7d".toList) :=
  C9_cost_value_characterization.1 "\x7bW\x7d\x7b2\x7d" (by decide)

/-!
`parse_card_types` (src/main.py:597-642).  The Python `for value in ...`
loop appending to `super_types`/`types` is translated as the two stable
filters of the token list; `split_type[0]`/`split_type[1]` are
`parts.headD []`/`parts.getD 1 []` (both accesses are guarded by the
em-dash membership test, which guarantees at least two parts); the
`MULTI_WORD_SUB_TYPES` pass is a fold carrying the mutated subtype text and
the `special_case_found` flag.
-/

def SUPER_TYPES : List String := ["Basic", "Host", "Legendary", "Ongoing", "Snow", "World"]

def MULTI_WORD_SUB_TYPES : List String := ["Time Lord"]

def multiWordStep (p : List Char × Bool) (sp : String) : List Char × Bool :=
  if hasSubL sp.toList p.1 then
    (replaceL sp.toList (replaceL [ ' ' ] [ '!' ] sp.toList) p.1, true)
  else p

def parse_card_types (card_type : String) : List String × String × List String :=
  if card_type.isEmpty then ([], "", [])
  else
    let cl := card_type.toList
    let parts := splitOnL [ '—' ] cl
    let supertypes_and_types := parts.headD []
    let sub_types : List String :=
      if !cl.contains '—' then []
      else
        let subtypes := parts.getD 1 []
        if "Plane".toList.isPrefixOf cl then [String.mk (trimL subtypes)]
        else
          let fr := MULTI_WORD_SUB_TYPES.foldl multiWordStep (subtypes, false)
          let toks := (wsplitL fr.1).map trimL
          if fr.2 then toks.map (fun t => String.mk (replaceL [ '!' ] [ ' ' ] t))
          else toks.map String.mk
    let toks := (wsplitL supertypes_and_types).map String.mk
    (toks.filter (fun v => SUPER_TYPES.contains v),
      String.intercalate " " (toks.filter (fun v => !SUPER_TYPES.contains v)),
      sub_types)

/-- C8: `parse_card_types` splits on the em-dash; left-side tokens in the
fixed supertype set are supertypes and the others are types (joined by
spaces); the right side is whitespace-split into subtypes, except that a
type line starting with "Plane" keeps the whole right side as one subtype
and the registered multi-word subtype "Time Lord" is kept whole; the two
spec examples evaluate as claimed. -/
theorem C8_parse_card_types_rules :
    (∀ s : String,
      (parse_card_types s).1 =
        ((wsplitL ((splitOnL [ '—' ] s.toList).headD [])).map String.mk).filter
          (fun v => SUPER_TYPES.contains v)
      ∧ (parse_card_types s).2.1 =
          String.intercalate " "
            (((wsplitL ((splitOnL [ '—' ] s.toList).headD [])).map String.mk).filter
              (fun v => !SUPER_TYPES.contains v)))
    ∧ (∀ s : String, s.toList.contains '—' = false → (parse_card_types s).2.2 = [])
    ∧ (∀ s : String, s.toList.contains '—' = true →
        "Plane".toList.isPrefixOf s.toList = true →
        (parse_card_types s).2.2 =
          [String.mk (trimL ((splitOnL [ '—' ] s.toList).getD 1 []))])
    ∧ (∀ s : String, s.toList.contains '—' = true →
        "Plane".toList.isPrefixOf s.toList = false →
        hasSubL "Time Lord".toList ((splitOnL [ '—' ] s.toList).getD 1 []) = false →
        (parse_card_types s).2.2 =
          ((wsplitL ((splitOnL [ '—' ] s.toList).getD 1 [])).map trimL).map String.mk)
    ∧ parse_card_types "Creature — Time Lord Doctor" = ([], "Creature", ["Time Lord", "Doctor"])
    ∧ parse_card_types "Legendary Creature — Human Wizard" =
        (["Legendary"], "Creature", ["Human", "Wizard"])
    ∧ parse_card_types "" = ([], "", []) := by
  have hne : ∀ s : String, s.toList.contains '—' = true → s.isEmpty = false := by
    intro s h
    rcases hb : s.isEmpty with _ | _
    · rfl
    · have : s = "" := (String.isEmpty_iff s).mp hb
      subst this
      simp at h
  refine ⟨?_, ?_, ?_, ?_, by decide, by decide, by decide⟩
  · intro s
    by_cases hs : s.isEmpty
    · have : s = "" := (String.isEmpty_iff s).mp hs
      subst this
      exact ⟨by decide, by decide⟩
    · exact ⟨by simp [parse_card_types, hs], by simp [parse_card_types, hs]⟩
  · intro s h
    have h' : '—' ∉ s.data := by simpa [String.toList] using h
    by_cases hs : s.isEmpty
    · simp [parse_card_types, hs]
    · simp [parse_card_types, hs, h']
  · intro s h hp
    have h' : '—' ∈ s.data := by simpa [String.toList] using h
    have hp' : [ 'P', 'l', 'a', 'n', 'e' ] <+: s.data := by simpa [String.toList] using hp
    simp [parse_card_types, hne s h, h', hp']
  · intro s h hp hm
    have h' : '—' ∈ s.data := by simpa [String.toList] using h
    have hp' : ¬ [ 'P', 'l', 'a', 'n', 'e' ] <+: s.data := by
      rw [← List.isPrefixOf_iff_prefix, Bool.not_eq_true]
      simpa [String.toList] using hp
    have hm' := hm
    simp [String.toList] at hm'
    simp [parse_card_types, hne s h, h', hp', MULTI_WORD_SUB_TYPES, multiWordStep, hm']

/-- Witness for C8: the hypothesis-bearing clauses applied at concrete type
lines (no em-dash; a Plane line; an ordinary creature line). -/
theorem C8_parse_card_types_rules_witness :
    (parse_card_types "Instant").2.2 = []
    ∧ (parse_card_types "Plane — Ravnica Block").2.2 =
        [String.mk (trimL ((splitOnL [ '—' ] "Plane — Ravnica Block".toList).getD 1 []))]
    ∧ (parse_card_types "Creature — Human").2.2 =
        ((wsplitL ((splitOnL [ '—' ] "Creature — Human".toList).getD 1 [])).map trimL).map
          String.mk := by
  obtain ⟨_, h2, h3, h4, _⟩ := C8_parse_card_types_rules
  exact ⟨h2 "Instant" (by decide),
    h3 "Plane — Ravnica Block" (by decide) (by decide),
    h4 "Creature — Human" (by decide) (by decide) (by decide)⟩

/-!
`parse_arena_ids_from_log` (src/main.py:403-416).  The argument can be the
`None` returned by `get_last_log_line`; `log_entry.split` then raises
`AttributeError`, which the function catches and turns into `[]`, so the
embedding takes an `Option String`.  `strip("[]")` removes leading and
trailing characters drawn from the set `[`/`]`.
-/

def stripBracketsL (l : List Char) : List Char :=
  ((l.dropWhile (fun c => c = '[' || c = ']')).reverse.dropWhile
    (fun c => c = '[' || c = ']')).reverse

def parse_arena_ids_from_log : Option String → List String
  | none => []
  | some s =>
    if (splitOnL [ ':', ':' ] s.toList).length < 3 then []
    else if (splitOnL [ ':', ' ' ]
        ((splitOnL [ ':', ':' ] s.toList).getD 2 [])).length < 2 then []
    else
      (((splitOnL [ ',', ' ' ]
          (stripBracketsL
            ((splitOnL [ ':', ' ' ]
              ((splitOnL [ ':', ':' ] s.toList).getD 2 [])).getD 1 []))).map trimL).filter
        (· ≠ [])).map String.mk

/-- C6: `parse_arena_ids_from_log` never raises (total, including on the
null last-line): a null line gives `[]`; a line with fewer than three
`::`-segments gives `[]`; a line whose third segment has no `": "`-payload
gives `[]`; otherwise it returns the trimmed non-empty tokens of the
bracket-stripped payload split on `", "`; and the spec example parses to
`["123", "456"]`. -/
theorem C6_parse_arena_ids :
    parse_arena_ids_from_log none = []
    ∧ (∀ s : String, (splitOnL [ ':', ':' ] s.toList).length < 3 →
        parse_arena_ids_from_log (some s) = [])
    ∧ (∀ s : String, ¬ (splitOnL [ ':', ':' ] s.toList).length < 3 →
        (splitOnL [ ':', ' ' ] ((splitOnL [ ':', ':' ] s.toList).getD 2 [])).length < 2 →
        parse_arena_ids_from_log (some s) = [])
    ∧ (∀ s : String, ¬ (splitOnL [ ':', ':' ] s.toList).length < 3 →
        ¬ (splitOnL [ ':', ' ' ] ((splitOnL [ ':', ':' ] s.toList).getD 2 [])).length < 2 →
        parse_arena_ids_from_log (some s) =
          (((splitOnL [ ',', ' ' ]
              (stripBracketsL
                ((splitOnL [ ':', ' ' ]
                  ((splitOnL [ ':', ':' ] s.toList).getD 2 [])).getD 1 []))).map trimL).filter
            (· ≠ [])).map String.mk)
    ∧ parse_arena_ids_from_log (some "a::b::Cards: [123, 456]") = ["123", "456"] := by
  refine ⟨rfl, ?_, ?_, ?_, by decide⟩
  · intro s h
    rw [parse_arena_ids_from_log, if_pos h]
  · intro s h1 h2
    rw [parse_arena_ids_from_log, if_neg h1, if_pos h2]
  · intro s h1 h2
    rw [parse_arena_ids_from_log, if_neg h1, if_neg h2]

/-- Witness for C6: the segment-count clauses applied at concrete log lines.
`"x"` has one `::`-segment; `"a::b::c"` has three but no `": "`-payload;
the spec example line exercises the successful clause. -/
theorem C6_parse_arena_ids_witness :
    parse_arena_ids_from_log (some "x") = []
    ∧ parse_arena_ids_from_log (some "a::b::c") = []
    ∧ parse_arena_ids_from_log (some "a::b::Cards: [123, 456]") =
        (((splitOnL [ ',', ' ' ]
            (stripBracketsL
              ((splitOnL [ ':', ' ' ]
                ((splitOnL [ ':', ':' ] "a::b::Cards: [123, 456]".toList).getD 2 [])).getD 1
                []))).map trimL).filter (· ≠ [])).map String.mk := by
  obtain ⟨_, h2, h3, h4, _⟩ := C6_parse_arena_ids
  exact ⟨h2 "x" (by decide), h3 "a::b::c" (by decide) (by decide),
    h4 "a::b::Cards: [123, 456]" (by decide) (by decide)⟩

/-!
Relational model of the SQLite database.  Tables are lists of rows in table
order (`LIMIT 1` takes the first matching row).  Text columns that the code
compares with `=` against a parameter keep SQL NULL as `Option.none`
(`arena_id`, `printed_name`, `flavor_name`); text columns only ever tested
for truthiness or parsed collapse NULL to `""`.  Deck ids are the integer
primary key, assumed unique per row as in the schema, so `GROUP BY d.id`
is modelled per deck row.  `list(set(...))` keeps first occurrences.
-/

def dedupGo {α : Type} [DecidableEq α] (seen : List α) : List α → List α
  | [] => []
  | a :: as =>
    if seen.contains a then dedupGo seen as else a :: dedupGo (a :: seen) as

def dedupF {α : Type} [DecidableEq α] (l : List α) : List α :=
  dedupGo [] l

/-- A row of `scryfall_all_cards`, restricted to the selected columns. -/
structure ScryRow where
  name : String := ""
  mana_cost : String := ""
  type_line : String := ""
  arena_id : Option String := none
  sid : String := ""
  printed_name : Option String := none
  flavor_name : Option String := none
  produced_mana : String := ""
  component : String := ""
deriving DecidableEq

/-- A row of the legacy `'17lands'` table; `sid` is `CAST(id AS VARCHAR)`. -/
structure SeventeenRow where
  sid : String := ""
  name : String := ""
deriving DecidableEq

/-- A row of `decks`; `fmt` is the `format` column. -/
structure DeckRow where
  id : Nat := 0
  name : String := ""
  source : String := ""
  url : String := ""
  fmt : String := ""
deriving DecidableEq

/-- A row of `deck_cards`. -/
structure DeckCardRow where
  deck_id : Nat := 0
  card_id : String := ""
  name : String := ""
  quantity : Nat := 0
deriving DecidableEq

structure DB where
  scryfall_all_cards : List ScryRow := []
  seventeenlands : List SeventeenRow := []
  decks : List DeckRow := []
  deck_cards : List DeckCardRow := []
deriving DecidableEq

/-!
`fetch_current_deck_cards` (src/main.py:419-479).  A card dict is a
`FetchedCard`: the rows of the primary query carry all catalog columns
(`dat = some ...`); the rows built from the legacy table carry only
`name`/`arena_id` (`dat = none`), and a successful name or alias lookup
overwrites every field from the catalog row.  The annotation loop reads
`card['type_line']`, which raises `KeyError` on a card whose lookups all
failed (`dat = none`), and calls `calculate_mana_cost_value`, which can
itself raise; either failure makes the whole call return `none`.
-/

structure ScryData where
  mana_cost : String := ""
  type_line : String := ""
  sid : String := ""
  printed_name : Option String := none
  flavor_name : Option String := none
  produced_mana : String := ""
deriving DecidableEq

structure FetchedCard where
  name : String := ""
  arena_id : Option String := none
  dat : Option ScryData := none
deriving DecidableEq

def ScryRow.toData (r : ScryRow) : ScryData :=
  { mana_cost := r.mana_cost, type_line := r.type_line, sid := r.sid,
    printed_name := r.printed_name, flavor_name := r.flavor_name,
    produced_mana := r.produced_mana }

def ScryRow.toFetched (r : ScryRow) : FetchedCard :=
  { name := r.name, arena_id := r.arena_id, dat := some r.toData }

/-- A fully annotated card dict, as returned by `fetch_current_deck_cards`. -/
structure AnnCard where
  name : String := ""
  arena_id : Option String := none
  mana_cost : String := ""
  type_line : String := ""
  sid : String := ""
  printed_name : Option String := none
  flavor_name : Option String := none
  produced_mana : String := ""
  count : Nat := 0
  super_types : List String := []
  types : String := ""
  sub_types : List String := []
  mana_cost_value : Nat := 0
  mana_cost_tags : String := ""
deriving DecidableEq

/-- `SELECT ... WHERE name = ? LIMIT 1`. -/
def nameLookup (db : DB) (n : String) : Option ScryRow :=
  db.scryfall_all_cards.find? (fun r => r.name = n)

/-- `SELECT ... WHERE printed_name = ? OR flavor_name = ? LIMIT 1`. -/
def aliasLookup (db : DB) (n : String) : Option ScryRow :=
  db.scryfall_all_cards.find? (fun r => r.printed_name = some n || r.flavor_name = some n)

/-- The body of the `for card in missing_cards` loop: mutate the card dict
from the first catalog row matching by name, else by printed/flavor name,
else leave it untouched. -/
def resolveMissingCard (db : DB) (card : FetchedCard) : FetchedCard :=
  match nameLookup db card.name with
  | some r => r.toFetched
  | none =>
    match aliasLookup db card.name with
    | some r => r.toFetched
    | none => card

/-- The `for card in missing_cards` loop with its per-iteration subtraction
`missing_ids = list(set(missing_ids) - set(arena_ids of missing_cards))`:
the subtraction sees the already-mutated prefix (`done`) and the not yet
mutated suffix (`todo`). -/
def missingLoop (db : DB) : List FetchedCard → List FetchedCard → List String →
    List FetchedCard × List String
  | done, [], missing => (done, missing)
  | done, card :: todo, missing =>
    let card2 := resolveMissingCard db card
    missingLoop db (done ++ [card2]) todo
      (missing.filter (fun i =>
        !(((done ++ card2 :: todo).map (fun c => c.arena_id)).contains (some i))))

/-- `id_counts.get(card["arena_id"], 0)`: the `Counter` over the requested
id list, with default 0 for an id (or a NULL) that does not occur in it. -/
def countGetZero (arenaIds : List String) : Option String → Nat
  | some a => arenaIds.count a
  | none => 0

def annotateCard (arenaIds : List String) (card : FetchedCard) : Option AnnCard :=
  match card.dat with
  | none => none
  | some d =>
    match calculate_mana_cost_value d.mana_cost with
    | none => none
    | some vt =>
      some { name := card.name, arena_id := card.arena_id, mana_cost := d.mana_cost,
             type_line := d.type_line, sid := d.sid, printed_name := d.printed_name,
             flavor_name := d.flavor_name, produced_mana := d.produced_mana,
             count := countGetZero arenaIds card.arena_id,
             super_types := (parse_card_types d.type_line).1,
             types := (parse_card_types d.type_line).2.1,
             sub_types := (parse_card_types d.type_line).2.2,
             mana_cost_value := vt.1, mana_cost_tags := vt.2 }

def fetch_current_deck_cards (db : DB) (arenaIds : List String) :
    Option (List AnnCard × List String) :=
  if arenaIds.isEmpty then some ([], [])
  else
    let cards0 := dedupF ((db.scryfall_all_cards.filter (fun r =>
      match r.arena_id with
      | some a => arenaIds.contains a
      | none => false)).map ScryRow.toFetched)
    let missing0 := (dedupF arenaIds).filter
      (fun i => !((cards0.map (fun c => c.arena_id)).contains (some i)))
    let step2 :=
      if missing0.isEmpty then (cards0, missing0)
      else
        let legacy := dedupF ((db.seventeenlands.filter
            (fun r => missing0.contains r.sid)).map
          (fun r => ({ name := r.name, arena_id := some r.sid } : FetchedCard)))
        let lr := missingLoop db [] legacy missing0
        (cards0 ++ lr.1, lr.2)
    (step2.1.mapM (annotateCard arenaIds)).map (fun anns => (anns, step2.2))

/-!
`find_matching_decks` (src/main.py:492-539).  `ORDER BY matched_cards DESC`
with SQLite's unspecified tie order is modelled as a stable descending
insertion sort; `LIMIT 3` is `take 3`.  The relaxed second query runs iff
the first returned fewer than 3 rows, and its rows are appended to the
first-tier rows (`cards.extend(...)`), without deduplication.
-/

structure MatchRow where
  id : Nat := 0
  name : String := ""
  source : String := ""
  url : String := ""
  matched_cards : Nat := 0
  total_deck_cards : Nat := 0
deriving DecidableEq

def insertMatch (x : MatchRow) : List MatchRow → List MatchRow
  | [] => [x]
  | y :: ys => if y.matched_cards < x.matched_cards then x :: y :: ys else y :: insertMatch x ys

def sortMatchDesc : List MatchRow → List MatchRow
  | [] => []
  | x :: xs => insertMatch x (sortMatchDesc xs)

/-- `(SELECT COUNT(*) FROM deck_cards WHERE deck_id = d.id)`. -/
def deckTotalCards (db : DB) (did : Nat) : Nat :=
  (db.deck_cards.filter (fun dc => dc.deck_id = did)).length

/-- Query 1 row for deck `d`: `COUNT(DISTINCT dc.card_id)` over the join
rows `decks ⋈ deck_cards ⋈ scryfall_all_cards` on card id with
`c.name IN (names)`. -/
def q1MatchRow (db : DB) (names : List String) (d : DeckRow) : MatchRow :=
  { id := d.id, name := d.name, source := d.source, url := d.url,
    matched_cards := (dedupF ((db.deck_cards.filter (fun dc =>
      dc.deck_id = d.id && db.scryfall_all_cards.any (fun c =>
        c.sid = dc.card_id && names.contains c.name))).map (fun dc => dc.card_id))).length,
    total_deck_cards := deckTotalCards db d.id }

def q1 (db : DB) (names : List String) : List MatchRow :=
  (sortMatchDesc ((db.decks.filter (fun d => db.deck_cards.any (fun dc =>
    dc.deck_id = d.id && db.scryfall_all_cards.any (fun c =>
      c.sid = dc.card_id && names.contains c.name)))).map (q1MatchRow db names))).take 3

/-- Query 2 row for deck `d`: `COUNT(DISTINCT dc.name)` over the relaxed
join on `dc.name = c.name`. -/
def q2MatchRow (db : DB) (names : List String) (d : DeckRow) : MatchRow :=
  { id := d.id, name := d.name, source := d.source, url := d.url,
    matched_cards := (dedupF ((db.deck_cards.filter (fun dc =>
      dc.deck_id = d.id && db.scryfall_all_cards.any (fun c =>
        c.name = dc.name && names.contains c.name))).map (fun dc => dc.name))).length,
    total_deck_cards := deckTotalCards db d.id }

def q2 (db : DB) (names : List String) : List MatchRow :=
  (sortMatchDesc ((db.decks.filter (fun d =>
    (d.fmt = "standard" && decide (deckTotalCards db d.id ≤ 100) &&
      (d.source = "17lands.com" || d.source = "mtgazone.com")) &&
    db.deck_cards.any (fun dc => dc.deck_id = d.id &&
      db.scryfall_all_cards.any (fun c =>
        c.name = dc.name && names.contains c.name)))).map (q2MatchRow db names))).take 3

def find_matching_decks (db : DB) (current_cards : List AnnCard) : List MatchRow :=
  if current_cards.isEmpty then []
  else
    let names := dedupF (current_cards.map (fun c => c.name))
    if (q1 db names).length < 3 then q1 db names ++ q2 db names else q1 db names

/-!
`build_card_count_map` (src/main.py:482-489): a Python dict keyed by card
name, built with `id_counts.get(card["arena_id"], 1)` — default 1, unlike
the default 0 used for the `count` annotation.  Later cards with the same
name overwrite earlier ones.
-/

/-- `d[k] = v` on a Python dict modelled as an association list with unique
keys: replace the binding when the key is present, else append it. -/
def assocPut : List (String × Nat) → String → Nat → List (String × Nat)
  | [], k, v => [(k, v)]
  | p :: ps, k, v => if p.1 = k then (k, v) :: ps else p :: assocPut ps k v

def assocGet (m : List (String × Nat)) (k : String) : Option Nat :=
  (m.find? (fun p => p.1 = k)).map (fun p => p.2)

/-- `id_counts.get(card["arena_id"], 1)`. -/
def countGetOne (arenaIds : List String) : Option String → Nat
  | some a => if arenaIds.contains a then arenaIds.count a else 1
  | none => 1

def build_card_count_map (arenaIds : List String) (cards : List AnnCard) :
    List (String × Nat) :=
  cards.foldl (fun m card => assocPut m card.name (countGetOne arenaIds card.arena_id)) []

/-!
`enrich_decks_with_cards` (src/main.py:559-594): per candidate deck, fetch
its card rows joined by card id (ordered by name), drop `combo_piece`
components, fall back to the name join with `GROUP BY c.name` when that
leaves nothing, then annotate every card with mana-cost value/tags, the
parsed type split, and `current_count = card_count_map.get(name, 0)`.
`ORDER BY c.name` is a stable ascending insertion sort; `GROUP BY c.name`
keeps the first row of each name in scan order.
-/

structure EnrichedCard where
  name : String := ""
  quantity : Nat := 0
  mana_cost : String := ""
  type_line : String := ""
  arena_id : Option String := none
  sid : String := ""
  component : String := ""
  mana_cost_value : Nat := 0
  mana_cost_tags : String := ""
  super_types : List String := []
  types : String := ""
  sub_types : List String := []
  current_count : Nat := 0
deriving DecidableEq

def mkEnriched (dc : DeckCardRow) (c : ScryRow) : EnrichedCard :=
  { name := c.name, quantity := dc.quantity, mana_cost := c.mana_cost,
    type_line := c.type_line, arena_id := c.arena_id, sid := c.sid,
    component := c.component }

def insertEnr (x : EnrichedCard) : List EnrichedCard → List EnrichedCard
  | [] => [x]
  | y :: ys => if x.name < y.name then x :: y :: ys else y :: insertEnr x ys

def sortEnrByName : List EnrichedCard → List EnrichedCard
  | [] => []
  | x :: xs => insertEnr x (sortEnrByName xs)

def dedupByNameGo (seen : List String) : List EnrichedCard → List EnrichedCard
  | [] => []
  | c :: cs =>
    if seen.contains c.name then dedupByNameGo seen cs
    else c :: dedupByNameGo (c.name :: seen) cs

def dedupByName (l : List EnrichedCard) : List EnrichedCard :=
  dedupByNameGo [] l

def deckCardsQ1 (db : DB) (did : Nat) : List EnrichedCard :=
  sortEnrByName ((db.deck_cards.filter (fun dc => dc.deck_id = did)).flatMap
    (fun dc => (db.scryfall_all_cards.filter (fun c => c.sid = dc.card_id)).map
      (mkEnriched dc)))

def deckCardsQ2 (db : DB) (did : Nat) : List EnrichedCard :=
  sortEnrByName (dedupByName ((db.deck_cards.filter (fun dc => dc.deck_id = did)).flatMap
    (fun dc => (db.scryfall_all_cards.filter (fun c => c.name = dc.name)).map
      (mkEnriched dc))))

def annotateEnriched (ccm : List (String × Nat)) (card : EnrichedCard) :
    Option EnrichedCard :=
  (calculate_mana_cost_value card.mana_cost).map (fun vt =>
    { card with mana_cost_value := vt.1, mana_cost_tags := vt.2,
                super_types := (parse_card_types card.type_line).1,
                types := (parse_card_types card.type_line).2.1,
                sub_types := (parse_card_types card.type_line).2.2,
                current_count := (assocGet ccm card.name).getD 0 })

def enrichDeck (db : DB) (ccm : List (String × Nat)) (deck : MatchRow) :
    Option (List EnrichedCard) :=
  let cards1 := (deckCardsQ1 db deck.id).filter (fun c => c.component ≠ "combo_piece")
  let cards2 :=
    if cards1.isEmpty then
      (deckCardsQ2 db deck.id).filter (fun c => c.component ≠ "combo_piece")
    else cards1
  cards2.mapM (annotateEnriched ccm)

def enrich_decks_with_cards (db : DB) (decks : List MatchRow)
    (ccm : List (String × Nat)) : Option (List (MatchRow × List EnrichedCard)) :=
  decks.mapM (fun d => (enrichDeck db ccm d).map (fun cs => (d, cs)))

/-!
Opponent-mana inference (src/main.py:291-299): from the fetched cards,
lands (`card['types'] == 'Land'`) with a truthy `produced_mana` contribute
`lands_dict[color] = 1` for each comma-separated token; the dict is then
splatted into `ManaPool(**lands_dict)`, which raises `TypeError` when a
token is not one of the six constructor parameters.
-/

def landColorTokens (cards : List AnnCard) : List (List Char) :=
  (cards.filter (fun c => c.types = "Land" && !c.produced_mana.isEmpty)).flatMap
    (fun c => splitOnL [ ',' ] c.produced_mana.toList)

def manaPoolOfTokens (tokens : List (List Char)) : Option ManaPool :=
  if tokens.all (fun t => t = [ 'W' ] || t = [ 'U' ] || t = [ 'B' ] || t = [ 'R' ]
      || t = [ 'G' ] || t = [ 'C' ]) then
    some { W := if tokens.contains [ 'W' ] then 1 else 0,
           U := if tokens.contains [ 'U' ] then 1 else 0,
           B := if tokens.contains [ 'B' ] then 1 else 0,
           R := if tokens.contains [ 'R' ] then 1 else 0,
           G := if tokens.contains [ 'G' ] then 1 else 0,
           C := if tokens.contains [ 'C' ] then 1 else 0 }
  else none

def inferOpponentMana (cards : List AnnCard) : Option ManaPool :=
  manaPoolOfTokens (landColorTokens cards)

theorem length_dedupGo_le {α : Type} [DecidableEq α] (seen : List α) (l : List α) :
    (dedupGo seen l).length ≤ l.length := by
  induction l generalizing seen with
  | nil => simp [dedupGo]
  | cons a as ih =>
    simp only [dedupGo]
    split
    · exact Nat.le_succ_of_le (ih seen)
    · simpa using ih (a :: seen)

theorem length_dedupF_le {α : Type} [DecidableEq α] (l : List α) :
    (dedupF l).length ≤ l.length :=
  length_dedupGo_le [] l

theorem length_filter_and_le {α : Type} (p q : α → Bool) (l : List α) :
    (l.filter (fun a => p a && q a)).length ≤ (l.filter p).length := by
  induction l with
  | nil => simp
  | cons a as ih =>
    simp only [List.filter_cons]
    cases hp : p a
    · simp [hp, ih]
    · cases hq : q a
      · simp [hp, hq]
        omega
      · simp [hp, hq]
        omega

theorem mem_insertMatch (x a : MatchRow) (l : List MatchRow) :
    a ∈ insertMatch x l ↔ a = x ∨ a ∈ l := by
  induction l with
  | nil => simp [insertMatch]
  | cons y ys ih =>
    simp only [insertMatch]
    split
    · simp
    · simp only [List.mem_cons, ih]
      tauto

theorem sorted_insertMatch (x : MatchRow) (l : List MatchRow)
    (h : l.Pairwise (fun a b => b.matched_cards ≤ a.matched_cards)) :
    (insertMatch x l).Pairwise (fun a b => b.matched_cards ≤ a.matched_cards) := by
  induction l with
  | nil => simp [insertMatch]
  | cons y ys ih =>
    rw [List.pairwise_cons] at h
    obtain ⟨hy, hys⟩ := h
    simp only [insertMatch]
    split
    · rename_i hcond
      rw [List.pairwise_cons]
      constructor
      · intro b hb
        rcases List.mem_cons.mp hb with hb | hb
        · subst hb
          omega
        · have := hy b hb
          omega
      · rw [List.pairwise_cons]
        exact ⟨hy, hys⟩
    · rename_i hcond
      rw [List.pairwise_cons]
      constructor
      · intro b hb
        rcases (mem_insertMatch x b ys).mp hb with hb | hb
        · subst hb
          omega
        · exact hy b hb
      · exact ih hys

theorem sorted_sortMatchDesc (l : List MatchRow) :
    (sortMatchDesc l).Pairwise (fun a b => b.matched_cards ≤ a.matched_cards) := by
  induction l with
  | nil => simp [sortMatchDesc]
  | cons x xs ih => exact sorted_insertMatch x (sortMatchDesc xs) ih

theorem mem_sortMatchDesc (a : MatchRow) (l : List MatchRow) :
    a ∈ sortMatchDesc l ↔ a ∈ l := by
  induction l with
  | nil => simp [sortMatchDesc]
  | cons x xs ih =>
    simp only [sortMatchDesc]
    rw [mem_insertMatch, ih]
    simp

theorem matched_le_total_q1Row (db : DB) (names : List String) (d : DeckRow) :
    (q1MatchRow db names d).matched_cards ≤ (q1MatchRow db names d).total_deck_cards := by
  simp only [q1MatchRow, deckTotalCards]
  have h1 := length_dedupF_le ((db.deck_cards.filter (fun dc =>
    dc.deck_id = d.id && db.scryfall_all_cards.any (fun c =>
      c.sid = dc.card_id && names.contains c.name))).map (fun dc => dc.card_id))
  rw [List.length_map] at h1
  have h2 := length_filter_and_le (fun dc => decide (dc.deck_id = d.id))
    (fun dc => db.scryfall_all_cards.any (fun c =>
      c.sid = dc.card_id && names.contains c.name)) db.deck_cards
  exact le_trans h1 h2

theorem matched_le_total_q2Row (db : DB) (names : List String) (d : DeckRow) :
    (q2MatchRow db names d).matched_cards ≤ (q2MatchRow db names d).total_deck_cards := by
  simp only [q2MatchRow, deckTotalCards]
  have h1 := length_dedupF_le ((db.deck_cards.filter (fun dc =>
    dc.deck_id = d.id && db.scryfall_all_cards.any (fun c =>
      c.name = dc.name && names.contains c.name))).map (fun dc => dc.name))
  rw [List.length_map] at h1
  have h2 := length_filter_and_le (fun dc => decide (dc.deck_id = d.id))
    (fun dc => db.scryfall_all_cards.any (fun c =>
      c.name = dc.name && names.contains c.name)) db.deck_cards
  exact le_trans h1 h2

theorem q1_mem (db : DB) (names : List String) (r : MatchRow) (h : r ∈ q1 db names) :
    ∃ d, r = q1MatchRow db names d := by
  simp only [q1] at h
  have h' := List.mem_of_mem_take h
  rw [mem_sortMatchDesc] at h'
  obtain ⟨d, _, rfl⟩ := List.mem_map.mp h'
  exact ⟨d, rfl⟩

theorem q2_mem (db : DB) (names : List String) (r : MatchRow) (h : r ∈ q2 db names) :
    ∃ d ∈ db.decks, r = q2MatchRow db names d
      ∧ d.fmt = "standard" ∧ deckTotalCards db d.id ≤ 100
      ∧ (d.source = "17lands.com" ∨ d.source = "mtgazone.com") := by
  simp only [q2] at h
  have h' := List.mem_of_mem_take h
  rw [mem_sortMatchDesc] at h'
  obtain ⟨d, hd, rfl⟩ := List.mem_map.mp h'
  rw [List.mem_filter] at hd
  obtain ⟨hmem, hcond⟩ := hd
  simp only [Bool.and_eq_true, Bool.or_eq_true, decide_eq_true_eq] at hcond
  exact ⟨d, hmem, rfl, hcond.1.1.1, hcond.1.1.2, hcond.1.2⟩

theorem q1_length_le (db : DB) (names : List String) : (q1 db names).length ≤ 3 := by
  simp only [q1]
  exact List.length_take_le 3 _

theorem q1_sorted (db : DB) (names : List String) :
    (q1 db names).Pairwise (fun a b => b.matched_cards ≤ a.matched_cards) := by
  simp only [q1]
  exact (sorted_sortMatchDesc _).sublist (List.take_sublist 3 _)

theorem q2_sorted (db : DB) (names : List String) :
    (q2 db names).Pairwise (fun a b => b.matched_cards ≤ a.matched_cards) := by
  simp only [q2]
  exact (sorted_sortMatchDesc _).sublist (List.take_sublist 3 _)

/-- The database of the C1 failing input: an empty catalog and one legacy
`'17lands'` row mapping id 9 to the name Ghost, which no catalog row
carries. -/
def dbC1 : DB := { seventeenlands := [{ sid := "9", name := "Ghost" }] }

/-- C1 (code-bug evidence): for the request `["9"]` against `dbC1`, id 9 has
no primary hit, the legacy table yields the name Ghost, and both the exact
and the printed/flavor lookups fail — yet `fetch_current_deck_cards` does not
return `["9"]` as `missing_ids`: the per-iteration set subtraction has
already dropped 9 (the unresolved dict still carries `arena_id = 9`), and the
annotation loop then raises `KeyError` on the absent `type_line` key, so the
call errors out (`none`).  By contrast an id absent from the legacy table too
is returned in `missing_ids` as claimed (second conjunct, id 8). -/
theorem C1_unresolved_legacy_id_is_error :
    fetch_current_deck_cards dbC1 ["9"] = none
    ∧ fetch_current_deck_cards dbC1 ["8"] = some ([], ["8"]) := by
  exact ⟨by decide, by decide⟩

/-- The counterexample database for C4: deck A (id 1) joins by card id on
one observed name; deck B (id 2) stores its cards keyed by name only, is
standard-format with an allow-listed source, and matches two observed
names. -/
def dbC4 : DB :=
  { scryfall_all_cards :=
      [{ name := "n1", sid := "s1" }, { name := "n2", sid := "s2" }],
    decks :=
      [{ id := 1, name := "A", source := "untapped", url := "", fmt := "x" },
       { id := 2, name := "B", source := "17lands.com", url := "", fmt := "standard" }],
    deck_cards :=
      [{ deck_id := 1, card_id := "s1", name := "zz", quantity := 1 },
       { deck_id := 2, card_id := "x1", name := "n1", quantity := 1 },
       { deck_id := 2, card_id := "x2", name := "n2", quantity := 1 }] }

def curC4 : List AnnCard := [{ name := "n1" }, { name := "n2" }]

/-- C4 counterexample: on `dbC4` the first tier returns only deck A with one
matched card, so the fallback tier appends deck B with two matched cards;
the returned list has matched-card counts `[1, 2]` and is not sorted
descending as a whole. -/
theorem C4_result_not_globally_sorted :
    (find_matching_decks dbC4 curC4).map (fun r => r.matched_cards) = [1, 2]
    ∧ ¬ (find_matching_decks dbC4 curC4).Pairwise
        (fun a b => b.matched_cards ≤ a.matched_cards) := by
  constructor
  · decide
  · intro h
    rw [show find_matching_decks dbC4 curC4 =
      [{ id := 1, name := "A", source := "untapped", url := "",
         matched_cards := 1, total_deck_cards := 1 },
       { id := 2, name := "B", source := "17lands.com", url := "",
         matched_cards := 2, total_deck_cards := 2 }] from by decide] at h
    rw [List.pairwise_cons] at h
    have := h.1 _ (List.mem_cons_self _ _)
    simp at this

theorem q1_names_nil (db : DB) : q1 db [] = [] := by
  have hf : (db.decks.filter (fun d => db.deck_cards.any (fun dc =>
      dc.deck_id = d.id && db.scryfall_all_cards.any (fun c =>
        c.sid = dc.card_id && ([] : List String).contains c.name)))) = [] := by
    rw [List.filter_eq_nil_iff]
    intro d _
    simp
  simp only [q1, hf, List.map_nil, sortMatchDesc, List.take_nil]

/-- C4 (amended): every returned deck has `matched_cards ≤ total_deck_cards`;
each query tier is individually sorted descending by `matched_cards` and the
first tier is capped at 3; the result is the first tier alone or the first
tier followed by the fallback tier (so the concatenation need not be
globally sorted). -/
theorem C4_find_matching_decks_shape (db : DB) (cur : List AnnCard) :
    (∀ r ∈ find_matching_decks db cur, r.matched_cards ≤ r.total_deck_cards)
    ∧ (q1 db (dedupF (cur.map (fun c => c.name)))).length ≤ 3
    ∧ (q1 db (dedupF (cur.map (fun c => c.name)))).Pairwise
        (fun a b => b.matched_cards ≤ a.matched_cards)
    ∧ (q2 db (dedupF (cur.map (fun c => c.name)))).Pairwise
        (fun a b => b.matched_cards ≤ a.matched_cards)
    ∧ (find_matching_decks db cur = q1 db (dedupF (cur.map (fun c => c.name)))
        ∨ find_matching_decks db cur =
            q1 db (dedupF (cur.map (fun c => c.name)))
              ++ q2 db (dedupF (cur.map (fun c => c.name)))) := by
  refine ⟨?_, q1_length_le db _, q1_sorted db _, q2_sorted db _, ?_⟩
  · intro r hr
    by_cases hcur : cur.isEmpty
    · simp [find_matching_decks, hcur] at hr
    · simp only [find_matching_decks, hcur, Bool.false_eq_true, if_false] at hr
      have hr2 : r ∈ q1 db (dedupF (cur.map (fun c => c.name)))
          ∨ r ∈ q2 db (dedupF (cur.map (fun c => c.name))) := by
        by_cases hlen : (q1 db (dedupF (cur.map (fun c => c.name)))).length < 3
        · rw [if_pos hlen] at hr
          exact List.mem_append.mp hr
        · rw [if_neg hlen] at hr
          exact Or.inl hr
      rcases hr2 with hr2 | hr2
      · obtain ⟨d, rfl⟩ := q1_mem db _ r hr2
        exact matched_le_total_q1Row db _ d
      · obtain ⟨d, _, rfl, _⟩ := q2_mem db _ r hr2
        exact matched_le_total_q2Row db _ d
  · by_cases hcur : cur.isEmpty
    · left
      have hc : cur = [] := by
        cases cur
        · rfl
        · simp at hcur
      subst hc
      simp only [find_matching_decks, List.isEmpty_nil, if_true, List.map_nil]
      rw [show dedupF ([] : List String) = [] from rfl, q1_names_nil]
    · simp only [find_matching_decks, hcur, Bool.false_eq_true, if_false]
      by_cases hlen : (q1 db (dedupF (cur.map (fun c => c.name)))).length < 3
      · right
        rw [if_pos hlen]
      · left
        rw [if_neg hlen]

/-- Witness for C4 (amended): the matched-versus-total bound applied to the
concrete fallback-tier deck B of the counterexample database. -/
theorem C4_find_matching_decks_shape_witness :
    ({ id := 2, name := "B", source := "17lands.com", url := "",
       matched_cards := 2, total_deck_cards := 2 } : MatchRow).matched_cards ≤
      ({ id := 2, name := "B", source := "17lands.com", url := "",
         matched_cards := 2, total_deck_cards := 2 } : MatchRow).total_deck_cards :=
  (C4_find_matching_decks_shape dbC4 curC4).1 _ (by decide)

/-- C5: for a non-empty observed card list, `find_matching_decks` runs the
first id-join query capped at 3 and ordered descending by match count, and
appends the relaxed name-join results — filtered to format standard,
`total_deck_cards ≤ 100` and the two-source allow-list — exactly when the
first query returned fewer than 3 decks; the append keeps both tiers as-is
(no deduplication of decks appearing in both). -/
theorem C5_two_tier_queries (db : DB) (cur : List AnnCard) (hne : cur.isEmpty = false) :
    ((q1 db (dedupF (cur.map (fun c => c.name)))).length < 3 →
      find_matching_decks db cur =
        q1 db (dedupF (cur.map (fun c => c.name)))
          ++ q2 db (dedupF (cur.map (fun c => c.name))))
    ∧ (¬ (q1 db (dedupF (cur.map (fun c => c.name)))).length < 3 →
        find_matching_decks db cur = q1 db (dedupF (cur.map (fun c => c.name))))
    ∧ (q1 db (dedupF (cur.map (fun c => c.name)))).length ≤ 3
    ∧ (q1 db (dedupF (cur.map (fun c => c.name)))).Pairwise
        (fun a b => b.matched_cards ≤ a.matched_cards)
    ∧ (∀ r ∈ q2 db (dedupF (cur.map (fun c => c.name))),
        ∃ d ∈ db.decks, r = q2MatchRow db (dedupF (cur.map (fun c => c.name))) d
          ∧ d.fmt = "standard" ∧ deckTotalCards db d.id ≤ 100
          ∧ (d.source = "17lands.com" ∨ d.source = "mtgazone.com")) := by
  refine ⟨?_, ?_, q1_length_le db _, q1_sorted db _, fun r hr => q2_mem db _ r hr⟩
  · intro hlen
    simp only [find_matching_decks, hne, Bool.false_eq_true, if_false]
    rw [if_pos hlen]
  · intro hlen
    simp only [find_matching_decks, hne, Bool.false_eq_true, if_false]
    rw [if_neg hlen]

/-- Witness for C5: on the counterexample database the first tier has one
deck, so the relaxed tier is appended. -/
theorem C5_two_tier_queries_witness :
    find_matching_decks dbC4 curC4 =
      q1 dbC4 (dedupF (curC4.map (fun c => c.name)))
        ++ q2 dbC4 (dedupF (curC4.map (fun c => c.name))) :=
  (C5_two_tier_queries dbC4 curC4 (by decide)).1 (by decide)

/-- Some observed card is a Land (parsed types exactly "Land") with a truthy
produced-mana attribute listing the token `tok`. -/
def producesColor (cards : List AnnCard) (tok : List Char) : Prop :=
  ∃ c ∈ cards, c.types = "Land" ∧ c.produced_mana ≠ ""
    ∧ tok ∈ splitOnL [ ',' ] c.produced_mana.toList

theorem mem_landColorTokens (cards : List AnnCard) (tok : List Char) :
    tok ∈ landColorTokens cards ↔ producesColor cards tok := by
  simp only [landColorTokens, producesColor, List.mem_flatMap, List.mem_filter,
    Bool.and_eq_true, decide_eq_true_eq, Bool.not_eq_true', String.isEmpty_iff]
  constructor
  · rintro ⟨c, ⟨hc, ht, hp⟩, hm⟩
    exact ⟨c, hc, ht, fun he => by rw [he] at hp; exact absurd hp (by decide), hm⟩
  · rintro ⟨c, hc, ht, hp, hm⟩
    refine ⟨c, ⟨hc, ht, ?_⟩, hm⟩
    rcases hb : c.produced_mana.isEmpty with _ | _
    · rfl
    · exact absurd ((String.isEmpty_iff _).mp hb) hp

/-- C7: whenever the opponent-mana inference succeeds, every pool component
is 0 or 1, and a color component is 1 exactly when some observed card with
parsed types exactly "Land" and a non-empty produced-mana attribute lists
that color token; colors never produced stay 0 and repeated lands do not
stack. -/
theorem C7_opponent_mana (cards : List AnnCard) (pool : ManaPool)
    (h : inferOpponentMana cards = some pool) :
    ((pool.W = 0 ∨ pool.W = 1) ∧ (pool.U = 0 ∨ pool.U = 1) ∧ (pool.B = 0 ∨ pool.B = 1)
      ∧ (pool.R = 0 ∨ pool.R = 1) ∧ (pool.G = 0 ∨ pool.G = 1) ∧ (pool.C = 0 ∨ pool.C = 1))
    ∧ (pool.W = 1 ↔ producesColor cards [ 'W' ])
    ∧ (pool.U = 1 ↔ producesColor cards [ 'U' ])
    ∧ (pool.B = 1 ↔ producesColor cards [ 'B' ])
    ∧ (pool.R = 1 ↔ producesColor cards [ 'R' ])
    ∧ (pool.G = 1 ↔ producesColor cards [ 'G' ])
    ∧ (pool.C = 1 ↔ producesColor cards [ 'C' ]) := by
  have key : ∀ tok : List Char,
      ((if (landColorTokens cards).contains tok then (1 : Int) else 0) = 0
        ∨ (if (landColorTokens cards).contains tok then (1 : Int) else 0) = 1)
      ∧ ((if (landColorTokens cards).contains tok then (1 : Int) else 0) = 1
          ↔ producesColor cards tok) := by
    intro tok
    by_cases hc : (landColorTokens cards).contains tok
    · rw [if_pos hc]
      exact ⟨Or.inr rfl,
        iff_of_true rfl ((mem_landColorTokens _ _).mp (by simpa using hc))⟩
    · rw [if_neg hc]
      refine ⟨Or.inl rfl, iff_of_false (by norm_num) ?_⟩
      intro hp
      exact hc (by simpa using (mem_landColorTokens _ _).mpr hp)
  rw [inferOpponentMana, manaPoolOfTokens] at h
  split at h
  · have hp := Option.some.inj h
    subst hp
    exact ⟨⟨(key _).1, (key _).1, (key _).1, (key _).1, (key _).1, (key _).1⟩,
      (key _).2, (key _).2, (key _).2, (key _).2, (key _).2, (key _).2⟩
  · exact absurd h (by simp)

/-- The observed cards of the C7 witness: a dual land producing W and U, a
creature producing G (not a land), a land with empty produced mana, and a
second W land that must not stack. -/
def demoCardsC7 : List AnnCard :=
  [{ name := "L1", types := "Land", produced_mana := "W,U" },
   { name := "Bear", types := "Creature", produced_mana := "G" },
   { name := "L2", types := "Land", produced_mana := "" },
   { name := "L3", types := "Land", produced_mana := "W" }]

/-- Witness for C7: on the demo cards the inference succeeds with W = 1, and
the characterization instantiates. -/
theorem C7_opponent_mana_witness :
    ({ W := 1, U := 1 } : ManaPool).W = 1 ↔ producesColor demoCardsC7 [ 'W' ] :=
  (C7_opponent_mana demoCardsC7 { W := 1, U := 1 } (by decide)).2.1

theorem assocGet_put_self (m : List (String × Nat)) (k : String) (v : Nat) :
    assocGet (assocPut m k v) k = some v := by
  induction m with
  | nil =>
    simp only [assocPut, assocGet]
    rw [List.find?_cons_of_pos _ (by simp)]
    rfl
  | cons p ps ih =>
    by_cases hp : p.1 = k
    · simp only [assocPut, if_pos hp, assocGet]
      rw [List.find?_cons_of_pos _ (by simp)]
      rfl
    · simp only [assocPut, if_neg hp, assocGet]
      rw [List.find?_cons_of_neg _ (by simp [hp])]
      exact ih

theorem assocGet_put_other (m : List (String × Nat)) (k k' : String) (v : Nat)
    (h : k' ≠ k) : assocGet (assocPut m k v) k' = assocGet m k' := by
  induction m with
  | nil =>
    simp only [assocPut, assocGet]
    rw [List.find?_cons_of_neg _ (by simp; exact fun hh => h hh.symm)]
  | cons p ps ih =>
    by_cases hp : p.1 = k
    · have hpk : ¬ p.1 = k' := by rw [hp]; exact fun hh => h hh.symm
      simp only [assocPut, if_pos hp, assocGet]
      rw [List.find?_cons_of_neg _ (by simp; exact fun hh => h hh.symm),
        List.find?_cons_of_neg _ (by simp [hpk])]
    · simp only [assocPut, if_neg hp, assocGet]
      by_cases hpk : p.1 = k'
      · rw [List.find?_cons_of_pos _ (by simp [hpk]),
          List.find?_cons_of_pos _ (by simp [hpk])]
      · rw [List.find?_cons_of_neg _ (by simp [hpk]),
          List.find?_cons_of_neg _ (by simp [hpk])]
        exact ih

theorem build_map_untouched (ids : List String) (k : String) :
    ∀ (cards : List AnnCard) (m : List (String × Nat)),
    (∀ c ∈ cards, c.name ≠ k) →
    assocGet (cards.foldl
      (fun m card => assocPut m card.name (countGetOne ids card.arena_id)) m) k =
      assocGet m k := by
  intro cards
  induction cards with
  | nil => intro m _; rfl
  | cons c cs ih =>
    intro m h
    rw [List.foldl_cons]
    rw [ih _ (fun cp hcp => h cp (List.mem_cons_of_mem c hcp))]
    exact assocGet_put_other m c.name k _ (Ne.symm (h c (List.mem_cons_self c cs)))

theorem build_map_last_value (ids : List String) (k : String) :
    ∀ (cards : List AnnCard) (m : List (String × Nat)),
    (∃ c ∈ cards, c.name = k) →
    (∀ c ∈ cards, c.name = k → countGetOne ids c.arena_id = 1) →
    assocGet (cards.foldl
      (fun m card => assocPut m card.name (countGetOne ids card.arena_id)) m) k =
      some 1 := by
  intro cards
  induction cards with
  | nil =>
    intro m hex _
    simp at hex
  | cons c cs ih =>
    intro m hex hval
    rw [List.foldl_cons]
    by_cases hrest : ∃ cp ∈ cs, cp.name = k
    · exact ih _ hrest (fun cp hcp => hval cp (List.mem_cons_of_mem c hcp))
    · have hck : c.name = k := by
        obtain ⟨cp, hcp, hn⟩ := hex
        rcases List.mem_cons.mp hcp with hh | hh
        · rw [← hh]; exact hn
        · exact absurd ⟨cp, hh, hn⟩ hrest
      rw [build_map_untouched ids k cs _ (fun cp hcp hn => hrest ⟨cp, hcp, hn⟩)]
      rw [hck]
      rw [hval c (List.mem_cons_self c cs) hck]
      exact assocGet_put_self m k 1

theorem annotateEnriched_count (ccm : List (String × Nat)) :
    ∀ (cards : List EnrichedCard) (out : List EnrichedCard),
    cards.mapM (annotateEnriched ccm) = some out →
    ∀ c ∈ out, c.current_count = (assocGet ccm c.name).getD 0 := by
  intro cards
  induction cards with
  | nil =>
    intro out h c hc
    rw [List.mapM_nil] at h
    obtain rfl := Option.some.inj h
    simp at hc
  | cons a as ih =>
    intro out h c hc
    rw [List.mapM_cons] at h
    cases ha : annotateEnriched ccm a with
    | none => rw [ha] at h; simp at h
    | some b =>
      rw [ha] at h
      cases hrest : as.mapM (annotateEnriched ccm) with
      | none => rw [hrest] at h; simp at h
      | some bs =>
        rw [hrest] at h
        have hout : b :: bs = out := by simpa using h
        subst hout
        rcases List.mem_cons.mp hc with hcb | hcbs
        · subst hcb
          simp only [annotateEnriched] at ha
          cases hv : calculate_mana_cost_value a.mana_cost with
          | none => rw [hv] at ha; simp at ha
          | some vt =>
            rw [hv] at ha
            have hb := ha
            simp at hb
            subst hb
            rfl
        · exact ih bs hrest c hcbs

theorem enrich_current_count (db : DB) (ccm : List (String × Nat)) :
    ∀ (decks : List MatchRow) (out : List (MatchRow × List EnrichedCard)),
    enrich_decks_with_cards db decks ccm = some out →
    ∀ p ∈ out, ∀ card ∈ p.2, card.current_count = (assocGet ccm card.name).getD 0 := by
  intro decks
  induction decks with
  | nil =>
    intro out h p hp
    simp only [enrich_decks_with_cards, List.mapM_nil] at h
    obtain rfl := Option.some.inj h
    simp at hp
  | cons d ds ih =>
    intro out h p hp card hcard
    simp only [enrich_decks_with_cards, List.mapM_cons] at h
    cases he : enrichDeck db ccm d with
    | none => rw [he] at h; simp at h
    | some cs =>
      rw [he] at h
      cases hrest : ds.mapM (fun d => (enrichDeck db ccm d).map (fun cs => (d, cs))) with
      | none =>
        rw [hrest] at h
        simp at h
      | some rest =>
        rw [hrest] at h
        have hout : (d, cs) :: rest = out := by simpa using h
        subst hout
        rcases List.mem_cons.mp hp with hpd | hprest
        · subst hpd
          exact annotateEnriched_count ccm _ cs he card hcard
        · exact ih rest hrest p hprest card hcard

/-- The cards of the C10 counterexample: two fetched cards share the name X;
the first has arena id 9 (absent from the observed list), the second has
arena id 1, observed twice. -/
def cardsC10 : List AnnCard :=
  [{ name := "X", arena_id := some "9" }, { name := "X", arena_id := some "1" }]

/-- C10 counterexample: the first card's arena id 9 does not occur in the
observed list `["1", "1"]`, yet `build_card_count_map` maps its name X to 2,
not 1 — the dict entry is overwritten by the later same-named card. -/
theorem C10_overwritten_by_later_card :
    ({ name := "X", arena_id := some "9" } : AnnCard) ∈ cardsC10
    ∧ (["1", "1"].contains "9") = false
    ∧ assocGet (build_card_count_map ["1", "1"] cardsC10) "X" = some 2
    ∧ assocGet (build_card_count_map ["1", "1"] cardsC10) "X" ≠ some 1 := by
  refine ⟨by decide, by decide, by decide, by decide⟩

/-- C10 (amended): when no card sharing the name has an arena id occurring in
the observed list, `build_card_count_map` maps that name to 1, not 0 (the
`get(..., 1)` default; with a later same-named card the entry is overwritten by
that card's count); `enrich_decks_with_cards` then assigns every card of
every candidate deck `current_count = card_count_map.get(name, 0)`, which is
1 for such a card and 0 for a card absent from the map entirely. -/
theorem C10_default_count_one :
    (∀ (ids : List String) (cards : List AnnCard) (card : AnnCard),
      card ∈ cards →
      (∀ c ∈ cards, c.name = card.name →
        c.arena_id.all (fun a => !(ids.contains a)) = true) →
      assocGet (build_card_count_map ids cards) card.name = some 1)
    ∧ (∀ (db : DB) (decks : List MatchRow) (ccm : List (String × Nat))
        (out : List (MatchRow × List EnrichedCard)),
        enrich_decks_with_cards db decks ccm = some out →
        ∀ p ∈ out, ∀ card ∈ p.2,
          card.current_count = (assocGet ccm card.name).getD 0) := by
  constructor
  · intro ids cards card hmem hfresh
    apply build_map_last_value ids card.name cards [] ⟨card, hmem, rfl⟩
    intro c hc hname
    have hfr := hfresh c hc hname
    cases ha : c.arena_id with
    | none => simp [countGetOne]
    | some a =>
      rw [ha] at hfr
      simp only [Option.all_some, Bool.not_eq_true'] at hfr
      simp only [countGetOne]
      rw [if_neg (by simp only [hfr]; exact Bool.false_ne_true)]
  · intro db decks ccm out h
    exact enrich_current_count db ccm decks out h

def dbC10w : DB :=
  { scryfall_all_cards := [{ name := "n1", sid := "s1" }],
    decks := [{ id := 1 }],
    deck_cards := [{ deck_id := 1, card_id := "s1", name := "n1", quantity := 1 }] }

def deckC10w : MatchRow := { id := 1, matched_cards := 1, total_deck_cards := 1 }

def cardC10w : EnrichedCard := { name := "n1", quantity := 1, sid := "s1" }

/-- Witness for C10 (amended): a card whose arena id 7 is not among the
observed ids maps its name to 1; and on a one-deck database the enriched
card of the candidate deck gets its `current_count` from the map (0 here,
the name being absent from the empty map). -/
theorem C10_default_count_one_witness :
    assocGet (build_card_count_map ["1"] [{ name := "Y", arena_id := some "7" }]) "Y" =
      some 1
    ∧ cardC10w.current_count = (assocGet [] cardC10w.name).getD 0 := by
  constructor
  · exact C10_default_count_one.1 ["1"] [{ name := "Y", arena_id := some "7" }]
      { name := "Y", arena_id := some "7" } (by decide) (by decide)
  · exact C10_default_count_one.2 dbC10w [deckC10w] [] [(deckC10w, [cardC10w])]
      (by decide) (deckC10w, [cardC10w]) (by decide) cardC10w (by decide)
